import Mathlib

/-!
Shallow embedding of the video engagement engine of this repository
(`src/controllers/videoController.ts`, `src/controllers/userController.ts`,
`src/models/Video.ts`, `src/models/User.ts`).

Conventions of the embedding:
* JavaScript numbers appearing as rating values or averages are modelled as `ℚ`
  (the routes only ever produce finite values, and the code performs exact
  floating-point-style division `sum / length`).
* MongoDB ObjectIds and string ids are modelled as opaque `Nat` values; the
  code only ever compares them for equality via `toString()` equality.
* `Date` timestamps are modelled as `Nat` values; the code only compares them
  through subtraction in a sort comparator.
* Strings (comment text, user names) are modelled as `List Char`;
  `String.prototype.trim` becomes `trimList` below.
* Each controller returns a result value; error constructors carry no updated
  document because the controller returns before any `save()` call, so the
  stored state is unchanged on every error path.
* Request-body / query-string fields that may be absent (or parse to `NaN`)
  are modelled as `Option` values.
-/

namespace VideoApp

/-- A rating entry of `Video.ratings` (`ratingSchema` in `models/Video.ts`). -/
structure Rating where
  userId : Nat
  rating : ℚ
  createdAt : Nat
deriving DecidableEq

/-- A comment entry of `Video.comments` (`commentSchema` in `models/Video.ts`);
`commentId` models the DB-assigned `_id`. -/
structure Comment where
  commentId : Nat
  userId : Nat
  userName : List Char
  text : List Char
  createdAt : Nat
deriving DecidableEq

/-- The engagement-relevant fields of a video document (`models/Video.ts`).
The Pexels metadata fields are never read or written by the operations the
claims concern, so they are omitted from the embedding. -/
structure Video where
  id : Nat
  likesCount : Int
  ratings : List Rating
  averageRating : ℚ
  comments : List Comment
deriving DecidableEq

/-- The fields of a user document touched by the embedded operations
(`models/User.ts`): `moviesLiked` for the like toggle, `favoriteVideos` for
the favorites list, `name` for the comment user-name snapshot. -/
structure User where
  id : Nat
  name : List Char
  moviesLiked : List Nat
  favoriteVideos : List Nat
deriving DecidableEq

/-- `Array.prototype.findIndex` combined with the subsequent element access:
returns the index of the first element satisfying `p` together with that
element, or `none` when `findIndex` returns `-1`. -/
def findWithIdx {α : Type} (p : α → Bool) : List α → Option (Nat × α)
  | [] => none
  | a :: as => if p a then some (0, a) else (findWithIdx p as).map (fun ia => (ia.1 + 1, ia.2))

/-- In-place mutation of the element at a given index
(`video.ratings[i].rating = ...` / `video.comments[i].text = ...`). -/
def modifyIdx {α : Type} (f : α → α) : Nat → List α → List α
  | _, [] => []
  | 0, a :: as => f a :: as
  | n + 1, a :: as => a :: modifyIdx f n as

/-- `video.ratings.reduce((sum, r) => sum + r.rating, 0)`. -/
def ratingSum (rs : List Rating) : ℚ :=
  rs.foldl (fun acc e => acc + e.rating) 0

/-- The two branches of `addOrUpdateRating` after `findIndex`: overwrite the
found entry's value and timestamp in place, or push a new entry. -/
def upsertRatings (rs : List Rating) (u : Nat) (r : ℚ) (now : Nat) : List Rating :=
  match findWithIdx (fun e => e.userId == u) rs with
  | some (i, _) => modifyIdx (fun e => { e with rating := r, createdAt := now }) i rs
  | none => rs ++ [{ userId := u, rating := r, createdAt := now }]

/-- Result of `addOrUpdateRating`. `invalidArgument` is HTTP 400 and
`ok v updated` is HTTP 200, where `updated` distinguishes the
"Calificación actualizada" and "Calificación agregada" messages. -/
inductive UpsertResult where
  | invalidArgument
  | ok (video : Video) (updated : Bool)
deriving DecidableEq

/-- `addOrUpdateRating` (`videoController.ts` lines 349-401), for a video that
was found.  The body field `rating` is `none` when absent; the guard
`!rating || rating < 1 || rating > 5` is falsy-or-out-of-range: note it does
not require integrality. -/
def addOrUpdateRating (v : Video) (u : Nat) (rating : Option ℚ) (now : Nat) : UpsertResult :=
  match rating with
  | none => .invalidArgument
  | some r =>
    if r = 0 ∨ r < 1 ∨ r > 5 then .invalidArgument
    else
      let newRatings := upsertRatings v.ratings u r now
      .ok { v with ratings := newRatings,
                   averageRating := ratingSum newRatings / (newRatings.length : ℚ) }
        (findWithIdx (fun e => e.userId == u) v.ratings).isSome

/-- Result of `deleteRating`: `notFound` is HTTP 404. -/
inductive DeleteRatingResult where
  | notFound
  | ok (video : Video)
deriving DecidableEq

/-- `deleteRating` (`videoController.ts` lines 453-495), for a video that was
found: locate the caller's entry, splice it out, then recompute the average or
set it to 0 when the remaining set is empty. -/
def deleteRating (v : Video) (u : Nat) : DeleteRatingResult :=
  match findWithIdx (fun e => e.userId == u) v.ratings with
  | none => .notFound
  | some (i, _) =>
    let newRatings := v.ratings.eraseIdx i
    .ok { v with ratings := newRatings,
                 averageRating :=
                   if 0 < newRatings.length then ratingSum newRatings / (newRatings.length : ℚ)
                   else 0 }

/-- Spec-side definition (from the spec's words, for comparison): the
arithmetic mean of all current rating values, or 0 if the set is empty. -/
def meanSpec (rs : List Rating) : ℚ :=
  if rs = [] then 0 else (rs.map Rating.rating).sum / (rs.length : ℚ)

/-- `user.moviesLiked.some((id) => id.toString() === videoId)`. -/
def likedState (u : User) (vid : Nat) : Bool :=
  u.moviesLiked.any (fun mid => mid == vid)

/-- Result of `toggleLike`: the saved user and video documents plus the
response's `liked` flag. -/
structure ToggleLikeResult where
  user : User
  video : Video
  liked : Bool
deriving DecidableEq

/-- `toggleLike` (`videoController.ts` lines 217-272), for a video and user
that were both found: remove the like (filtering the id out of `moviesLiked`
and decrementing `likesCount` with a floor at 0) or add it (pushing the id and
incrementing `likesCount`). -/
def toggleLike (u : User) (v : Video) : ToggleLikeResult :=
  if likedState u v.id then
    { user := { u with moviesLiked := u.moviesLiked.filter (fun mid => mid ≠ v.id) }
      video := { v with likesCount := max 0 (v.likesCount - 1) }
      liked := false }
  else
    { user := { u with moviesLiked := u.moviesLiked ++ [v.id] }
      video := { v with likesCount := v.likesCount + 1 }
      liked := true }

/-- Two successive like toggles by the same user on the same video. -/
def toggleTwice (u : User) (v : Video) : ToggleLikeResult :=
  let r := toggleLike u v
  toggleLike r.user r.video

/-- The character class removed by `String.prototype.trim` (the whitespace
characters that occur in this code base's inputs). -/
def isWS (c : Char) : Bool :=
  c == ' ' || c == '\t' || c == '\n' || c == '\r'

/-- `String.prototype.trim`: drop leading and trailing whitespace. -/
def trimList (s : List Char) : List Char :=
  ((s.dropWhile isWS).reverse.dropWhile isWS).reverse

/-- The configured maximum comment length (`text.length > 1000` in the
controller, `maxlength: 1000` in `commentSchema`). -/
def maxCommentLength : Nat := 1000

/-- Result of `addComment`: `invalidArgument` is HTTP 400, `ok` is HTTP 201
with the created comment. -/
inductive AddCommentResult where
  | invalidArgument
  | ok (video : Video) (comment : Comment)
deriving DecidableEq

/-- `addComment` (`videoController.ts` lines 510-558), for a video and user
that were both found.  `newId` models the DB-assigned `_id` of the pushed
comment. -/
def addComment (v : Video) (u : User) (text : List Char) (newId now : Nat) : AddCommentResult :=
  if text.isEmpty || (trimList text).isEmpty then .invalidArgument
  else if maxCommentLength < text.length then .invalidArgument
  else
    let c : Comment :=
      { commentId := newId, userId := u.id, userName := u.name,
        text := trimList text, createdAt := now }
    .ok { v with comments := v.comments ++ [c] } c

/-- Result of `editComment`: `invalidArgument` is HTTP 400, `notFound` 404,
`forbidden` 403, `ok` 200 with the edited comment. -/
inductive EditCommentResult where
  | invalidArgument
  | notFound
  | forbidden
  | ok (video : Video) (comment : Comment)
deriving DecidableEq

/-- `editComment` (`videoController.ts` lines 619-669), for a video that was
found: validate the text, locate the comment by id, check authorship, then
replace the text in place with the trimmed text. -/
def editComment (v : Video) (userId commentId : Nat) (text : List Char) : EditCommentResult :=
  if text.isEmpty || (trimList text).isEmpty then .invalidArgument
  else if maxCommentLength < text.length then .invalidArgument
  else
    match findWithIdx (fun c => c.commentId == commentId) v.comments with
    | none => .notFound
    | some (i, c) =>
      if c.userId ≠ userId then .forbidden
      else
        .ok { v with comments := modifyIdx (fun cc => { cc with text := trimList text }) i v.comments }
          { c with text := trimList text }

/-- Result of `deleteComment`: `notFound` is HTTP 404, `forbidden` 403. -/
inductive DeleteCommentResult where
  | notFound
  | forbidden
  | ok (video : Video)
deriving DecidableEq

/-- `deleteComment` (`videoController.ts` lines 684-721), for a video that was
found: locate the comment by id, check authorship, then splice it out. -/
def deleteComment (v : Video) (userId commentId : Nat) : DeleteCommentResult :=
  match findWithIdx (fun c => c.commentId == commentId) v.comments with
  | none => .notFound
  | some (i, c) =>
    if c.userId ≠ userId then .forbidden
    else .ok { v with comments := v.comments.eraseIdx i }

/-- `parseInt(q) || d`: `none` models an absent or non-numeric query parameter
(`parseInt` yields `NaN`, which is falsy); a parsed `0` is falsy as well and
is replaced by the default, but any other integer — negative included — is
truthy and kept. -/
def jsParseIntOr (d : Int) : Option Int → Int
  | none => d
  | some n => if n = 0 then d else n

/-- `Array.prototype.slice(start, stop)` with JavaScript's negative-index
semantics: a negative index counts from the end of the array. -/
def jsSlice {α : Type} (l : List α) (start stop : Int) : List α :=
  let len : Int := l.length
  let s : Int := if start < 0 then max (len + start) 0 else min start len
  let e : Int := if stop < 0 then max (len + stop) 0 else min stop len
  (l.drop s.toNat).take (e - s).toNat

/-- `video.comments.sort((a, b) => new Date(b.createdAt).getTime() - new
Date(a.createdAt).getTime())`: a stable sort by creation time, newest
first. -/
def sortByCreatedAtDesc (l : List Comment) : List Comment :=
  List.insertionSort (fun a b => b.createdAt ≤ a.createdAt) l

/-- The success payload of `getComments`. -/
structure CommentsPage where
  comments : List Comment
  currentPage : Int
  totalPages : Int
  totalComments : Nat
deriving DecidableEq

/-- `getComments` (`videoController.ts` lines 571-603), for a video that was
found: sort newest-first, slice the requested page, and report
`Math.ceil(totalComments / limit)` pages. -/
def getComments (v : Video) (page limit : Option Int) : CommentsPage :=
  let p := jsParseIntOr 1 page
  let lim := jsParseIntOr 20 limit
  let sorted := sortByCreatedAtDesc v.comments
  let startIndex := (p - 1) * lim
  let endIndex := startIndex + lim
  { comments := jsSlice sorted startIndex endIndex
    currentPage := p
    totalPages := Int.ceil ((v.comments.length : ℚ) / (lim : ℚ))
    totalComments := v.comments.length }

/-- Result of `addFavorite` (`userController.ts`): `missingVideoId` and
`alreadyFavorite` are both HTTP 400, the latter with the message
"El video ya está en favoritos" ("already a favorite"). -/
inductive AddFavoriteResult where
  | missingVideoId
  | alreadyFavorite
  | ok (user : User)
deriving DecidableEq

/-- `addFavorite` (`userController.ts` lines 166-199), for a user that was
found.  The body field `videoId` is `none` when absent. -/
def addFavorite (u : User) (videoId : Option Nat) : AddFavoriteResult :=
  match videoId with
  | none => .missingVideoId
  | some vid =>
    if u.favoriteVideos.contains vid then .alreadyFavorite
    else .ok { u with favoriteVideos := u.favoriteVideos ++ [vid] }

/-- Result of `removeFavorite`: `notFound` is HTTP 404 (no `save()` happens on
that path, so nothing is persisted). -/
inductive RemoveFavoriteResult where
  | notFound
  | ok (user : User)
deriving DecidableEq

/-- `removeFavorite` (`userController.ts` lines 213-243), for a user that was
found: filter the id out of `favoriteVideos`; when the length is unchanged the
id was not present and the route answers 404 without saving. -/
def removeFavorite (u : User) (videoId : Nat) : RemoveFavoriteResult :=
  let filtered := u.favoriteVideos.filter (fun fid => fid ≠ videoId)
  if filtered.length = u.favoriteVideos.length then .notFound
  else .ok { u with favoriteVideos := filtered }

/-! Helper lemmas about the rating operations. -/

theorem ratingSum_eq_map_sum (rs : List Rating) :
    ratingSum rs = (rs.map Rating.rating).sum := by
  have key : ∀ (l : List Rating) (a : ℚ),
      l.foldl (fun acc e => acc + e.rating) a = a + (l.map Rating.rating).sum := by
    intro l
    induction l with
    | nil => intro a; simp
    | cons e t ih => intro a; simp [List.foldl_cons, ih, add_assoc]
  simpa [ratingSum] using key rs 0

theorem upsertRatings_nil (u : Nat) (r : ℚ) (t : Nat) :
    upsertRatings [] u r t = [{ userId := u, rating := r, createdAt := t }] := rfl

theorem upsertRatings_cons (e : Rating) (rs : List Rating) (u : Nat) (r : ℚ) (t : Nat) :
    upsertRatings (e :: rs) u r t =
      if e.userId = u then { e with rating := r, createdAt := t } :: rs
      else e :: upsertRatings rs u r t := by
  by_cases h : e.userId = u
  · simp [upsertRatings, findWithIdx, h, modifyIdx]
  · simp only [upsertRatings, findWithIdx, beq_iff_eq, h, if_neg, if_false]
    cases hf : findWithIdx (fun x => x.userId == u) rs with
    | none => simp [hf, List.cons_append]
    | some ia => cases ia with
      | mk i a => simp [hf, modifyIdx]

theorem upsertRatings_length (rs : List Rating) (u : Nat) (r : ℚ) (t : Nat) :
    (upsertRatings rs u r t).length =
      if rs.any (fun e => e.userId == u) then rs.length else rs.length + 1 := by
  induction rs with
  | nil => simp [upsertRatings_nil]
  | cons e rs ih =>
    rw [upsertRatings_cons]
    by_cases h : e.userId = u
    · simp [h]
    · simp only [h, if_false, List.length_cons, List.any_cons, beq_iff_eq, ih]
      by_cases h2 : rs.any (fun e => e.userId == u) <;> simp [h, h2]

/-- Number of rating entries belonging to a given user. -/
def ratingsFor (rs : List Rating) (u : Nat) : Nat :=
  rs.countP (fun e => e.userId == u)

theorem upsertRatings_ratingsFor (rs : List Rating) (u : Nat) (r : ℚ) (t : Nat) :
    ratingsFor (upsertRatings rs u r t) u =
      if rs.any (fun e => e.userId == u) then ratingsFor rs u else ratingsFor rs u + 1 := by
  induction rs with
  | nil => simp [upsertRatings_nil, ratingsFor, List.countP_cons]
  | cons e rs ih =>
    rw [upsertRatings_cons]
    by_cases h : e.userId = u
    · simp [h, ratingsFor, List.countP_cons]
    · rw [if_neg h]
      by_cases h2 : rs.any (fun e => e.userId == u) = true <;>
        simp [ratingsFor, List.countP_cons, List.any_cons, h, h2] at ih ⊢ <;>
        omega

theorem upsertRatings_any (rs : List Rating) (u : Nat) (r : ℚ) (t : Nat) :
    (upsertRatings rs u r t).any (fun e => e.userId == u) = true := by
  induction rs with
  | nil => simp [upsertRatings_nil]
  | cons e rs ih =>
    rw [upsertRatings_cons]
    by_cases h : e.userId = u
    · simp [h]
    · simp [h, ih]

theorem upsertRatings_ne_nil (rs : List Rating) (u : Nat) (r : ℚ) (t : Nat) :
    upsertRatings rs u r t ≠ [] := by
  cases rs with
  | nil => simp [upsertRatings_nil]
  | cons e rs =>
    rw [upsertRatings_cons]
    by_cases h : e.userId = u <;> simp [h]

theorem upsertRatings_upsertRatings (rs : List Rating) (u : Nat) (r1 r2 : ℚ) (t1 t2 : Nat) :
    upsertRatings (upsertRatings rs u r1 t1) u r2 t2 = upsertRatings rs u r2 t2 := by
  induction rs with
  | nil => simp [upsertRatings_nil, upsertRatings_cons]
  | cons e rs ih =>
    by_cases h : e.userId = u
    · simp [upsertRatings_cons, h]
    · simp [upsertRatings_cons, h, ih]

theorem findWithIdx_isSome {α : Type} (p : α → Bool) (l : List α) :
    (findWithIdx p l).isSome = l.any p := by
  induction l with
  | nil => rfl
  | cons a as ih =>
    simp only [findWithIdx, List.any_cons]
    by_cases h : p a
    · simp [h]
    · simp only [h, if_false, Bool.false_or]
      rw [← ih]
      cases findWithIdx p as <;> simp

theorem findWithIdx_eq_none {α : Type} (p : α → Bool) (l : List α) :
    findWithIdx p l = none ↔ ∀ a ∈ l, p a = false := by
  induction l with
  | nil => simp [findWithIdx]
  | cons a as ih =>
    by_cases h : p a
    · constructor
      · intro hc; simp [findWithIdx, h] at hc
      · intro hall; exact absurd (hall a (List.mem_cons_self a as)) (by simp [h])
    · constructor
      · intro hc x hx
        rcases List.mem_cons.mp hx with rfl | hx2
        · simpa using h
        · have hnone : findWithIdx p as = none := by
            simp only [findWithIdx, h, if_false] at hc
            cases hf : findWithIdx p as with
            | none => rfl
            | some ia => rw [hf] at hc; simp at hc
          exact (ih.mp hnone) x hx2
      · intro hall
        have hnone : findWithIdx p as = none :=
          ih.mpr (fun x hx => hall x (List.mem_cons_of_mem a hx))
        simp [findWithIdx, h, hnone]

theorem findWithIdx_prop {α : Type} (p : α → Bool) :
    ∀ (l : List α) (i : Nat) (a : α), findWithIdx p l = some (i, a) → p a = true := by
  intro l
  induction l with
  | nil => intro i a h; simp [findWithIdx] at h
  | cons b as ih =>
    intro i a h
    by_cases hb : p b
    · simp only [findWithIdx, hb, if_true, Option.some.injEq, Prod.mk.injEq] at h
      rw [← h.2]; exact hb
    · simp only [findWithIdx, hb, if_false] at h
      cases hf : findWithIdx p as with
      | none => rw [hf] at h; simp at h
      | some ia =>
        rw [hf] at h
        cases ia with
        | mk j b2 =>
          simp at h
          rw [← h.2]
          exact ih j b2 hf

/-- Characterization of a successful rating upsert. -/
theorem addOrUpdateRating_ok {v : Video} {u : Nat} {r : ℚ} {t : Nat} {v' : Video} {b : Bool}
    (h : addOrUpdateRating v u (some r) t = .ok v' b) :
    ¬(r = 0 ∨ r < 1 ∨ r > 5) ∧
    v' = { v with ratings := upsertRatings v.ratings u r t,
                  averageRating := ratingSum (upsertRatings v.ratings u r t) /
                    ((upsertRatings v.ratings u r t).length : ℚ) } ∧
    b = v.ratings.any (fun e => e.userId == u) := by
  by_cases hc : r = 0 ∨ r < 1 ∨ r > 5
  · simp [addOrUpdateRating, hc] at h
  · refine ⟨hc, ?_⟩
    simp only [addOrUpdateRating, hc, if_false, UpsertResult.ok.injEq] at h
    exact ⟨h.1.symm, by rw [← h.2, findWithIdx_isSome]⟩

/-- Characterization of a successful rating removal. -/
theorem deleteRating_ok {v : Video} {u : Nat} {v' : Video}
    (h : deleteRating v u = .ok v') :
    ∃ i e, findWithIdx (fun e => e.userId == u) v.ratings = some (i, e) ∧
      v' = { v with ratings := v.ratings.eraseIdx i,
                    averageRating := if 0 < (v.ratings.eraseIdx i).length then
                      ratingSum (v.ratings.eraseIdx i) / ((v.ratings.eraseIdx i).length : ℚ)
                      else 0 } := by
  unfold deleteRating at h
  cases hf : findWithIdx (fun e => e.userId == u) v.ratings with
  | none => rw [hf] at h; simp at h
  | some ia =>
    rw [hf] at h
    cases ia with
    | mk i e =>
      simp only [DeleteRatingResult.ok.injEq] at h
      exact ⟨i, e, rfl, h.symm⟩

/-! Concrete sample documents used by witnesses and counterexamples. -/

/-- A video with no engagement yet, as produced by ingestion. -/
def videoA : Video :=
  { id := 10, likesCount := 0, ratings := [], averageRating := 0, comments := [] }

/-- A sample user. -/
def userA : User :=
  { id := 1, name := ['A'], moviesLiked := [], favoriteVideos := [] }

/-- `videoA` after user 1 rates it 4 at time 0. -/
def videoA4 : Video :=
  { videoA with ratings := [{ userId := 1, rating := 4, createdAt := 0 }], averageRating := 4 }

/-- `videoA` after user 1 rates it 2 at time 1. -/
def videoA2 : Video :=
  { videoA with ratings := [{ userId := 1, rating := 2, createdAt := 1 }], averageRating := 2 }

/-- `videoA` after user 1 rates it 3.5 at time 0 (the controller accepts the
non-integer value). -/
def videoA35 : Video :=
  { videoA with ratings := [{ userId := 1, rating := 7 / 2, createdAt := 0 }],
                averageRating := 7 / 2 }

/-! Concrete evaluations of the rating operations on the samples (proved by
`norm_num` because rational division does not reduce by `decide`). -/

theorem eval_upsert_videoA_4 :
    addOrUpdateRating videoA 1 (some 4) 0 = .ok videoA4 false := by
  norm_num [addOrUpdateRating, upsertRatings, findWithIdx, ratingSum, videoA, videoA4]

theorem eval_upsert_videoA4_2 :
    addOrUpdateRating videoA4 1 (some 2) 1 = .ok videoA2 true := by
  norm_num [addOrUpdateRating, upsertRatings, findWithIdx, modifyIdx, ratingSum,
    videoA, videoA4, videoA2]

theorem eval_upsert_videoA_2 :
    addOrUpdateRating videoA 1 (some 2) 1 = .ok videoA2 false := by
  norm_num [addOrUpdateRating, upsertRatings, findWithIdx, ratingSum, videoA, videoA2]

theorem eval_delete_videoA4 : deleteRating videoA4 1 = .ok videoA := by
  norm_num [deleteRating, findWithIdx, ratingSum, List.eraseIdx, videoA, videoA4]

theorem eval_upsert_videoA_35 :
    addOrUpdateRating videoA 1 (some (7 / 2)) 0 = .ok videoA35 false := by
  norm_num [addOrUpdateRating, upsertRatings, findWithIdx, ratingSum, videoA, videoA35]

/-- C1: after every successful rating upsert (`addOrUpdateRating`) and every
successful rating removal (`deleteRating`), the stored `averageRating` equals
the arithmetic mean of the rating values in the stored `ratings` collection,
and equals 0 when that collection is empty (`meanSpec`). -/
theorem C1_averageRating_invariant :
    (∀ (v : Video) (u : Nat) (r : Option ℚ) (t : Nat) (v' : Video) (b : Bool),
        addOrUpdateRating v u r t = .ok v' b → v'.averageRating = meanSpec v'.ratings) ∧
    (∀ (v : Video) (u : Nat) (v' : Video),
        deleteRating v u = .ok v' → v'.averageRating = meanSpec v'.ratings) := by
  constructor
  · intro v u r t v' b h
    match r with
    | none => simp [addOrUpdateRating] at h
    | some rq =>
      obtain ⟨hval, hv, hb⟩ := addOrUpdateRating_ok h
      subst hv
      show ratingSum (upsertRatings v.ratings u rq t) /
          ((upsertRatings v.ratings u rq t).length : ℚ)
        = meanSpec (upsertRatings v.ratings u rq t)
      rw [meanSpec, if_neg (upsertRatings_ne_nil v.ratings u rq t), ratingSum_eq_map_sum]
  · intro v u v' h
    obtain ⟨i, e, hf, hv⟩ := deleteRating_ok h
    subst hv
    show (if 0 < (v.ratings.eraseIdx i).length then
            ratingSum (v.ratings.eraseIdx i) / ((v.ratings.eraseIdx i).length : ℚ)
          else 0)
      = meanSpec (v.ratings.eraseIdx i)
    rw [meanSpec]
    by_cases hl : v.ratings.eraseIdx i = []
    · simp [hl]
    · have hpos : 0 < (v.ratings.eraseIdx i).length := List.length_pos.mpr hl
      rw [if_pos hpos, if_neg hl, ratingSum_eq_map_sum]

/-- C1 witness: concrete upsert and removal instances of the invariant. -/
theorem C1_witness :
    (addOrUpdateRating videoA 1 (some 4) 0 = .ok videoA4 false ∧
      videoA4.averageRating = meanSpec videoA4.ratings) ∧
    (deleteRating videoA4 1 = .ok videoA ∧
      videoA.averageRating = meanSpec videoA.ratings) :=
  ⟨⟨eval_upsert_videoA_4,
    C1_averageRating_invariant.1 videoA 1 (some 4) 0 videoA4 false eval_upsert_videoA_4⟩,
   ⟨eval_delete_videoA4,
    C1_averageRating_invariant.2 videoA4 1 videoA eval_delete_videoA4⟩⟩

/-- C2: starting from a state whose rating set has at most one entry for the
user, upserting the user's rating twice (the second time with a different
valid value) leaves the size of the rating set unchanged, keeps at most one
entry for the user, and produces exactly the state (and response flag) of a
single upsert with the latest value — so `averageRating` reflects only the
latest value. -/
theorem C2_double_upsert :
    ∀ (v v1 v2 : Video) (u : Nat) (r1 r2 : ℚ) (t1 t2 : Nat) (b1 b2 : Bool),
      r1 ≠ r2 →
      ratingsFor v.ratings u ≤ 1 →
      addOrUpdateRating v u (some r1) t1 = .ok v1 b1 →
      addOrUpdateRating v1 u (some r2) t2 = .ok v2 b2 →
      v2.ratings.length = v1.ratings.length ∧
      ratingsFor v2.ratings u ≤ 1 ∧
      addOrUpdateRating v u (some r2) t2 = .ok v2 b1 := by
  intro v v1 v2 u r1 r2 t1 t2 b1 b2 hne huniq h1 h2
  obtain ⟨hval1, hv1, hb1⟩ := addOrUpdateRating_ok h1
  obtain ⟨hval2, hv2, hb2⟩ := addOrUpdateRating_ok h2
  have hr1 : v1.ratings = upsertRatings v.ratings u r1 t1 := by rw [hv1]
  have hany1 : v1.ratings.any (fun e => e.userId == u) = true := by
    rw [hr1]; exact upsertRatings_any _ _ _ _
  have hr2 : v2.ratings = upsertRatings v1.ratings u r2 t2 := by rw [hv2]
  refine ⟨?_, ?_, ?_⟩
  · rw [hr2, upsertRatings_length, if_pos hany1]
  · rw [hr2]
    unfold ratingsFor
    rw [show (upsertRatings v1.ratings u r2 t2).countP (fun e => e.userId == u)
          = ratingsFor (upsertRatings v1.ratings u r2 t2) u from rfl]
    rw [upsertRatings_ratingsFor, if_pos hany1, hr1, upsertRatings_ratingsFor]
    by_cases hany0 : v.ratings.any (fun e => e.userId == u) = true
    · rw [if_pos hany0]; exact huniq
    · rw [if_neg hany0]
      have h0 : ratingsFor v.ratings u = 0 := by
        unfold ratingsFor
        rw [List.countP_eq_zero]
        intro a ha
        intro hpa
        exact hany0 (List.any_eq_true.mpr ⟨a, ha, hpa⟩)
      omega
  · rw [hv2, hv1]
    simp only [addOrUpdateRating, if_neg hval2]
    rw [hb1]
    simp [upsertRatings_upsertRatings, findWithIdx_isSome]

/-- C2 witness: user 1 rates `videoA` 4 then 2; the set keeps size one, stays
unique for the user, and the final state equals a single upsert of 2. -/
theorem C2_witness :
    (4 : ℚ) ≠ 2 ∧ ratingsFor videoA.ratings 1 ≤ 1 ∧
    addOrUpdateRating videoA 1 (some 4) 0 = .ok videoA4 false ∧
    addOrUpdateRating videoA4 1 (some 2) 1 = .ok videoA2 true ∧
    (videoA2.ratings.length = videoA4.ratings.length ∧
      ratingsFor videoA2.ratings 1 ≤ 1 ∧
      addOrUpdateRating videoA 1 (some 2) 1 = .ok videoA2 false) :=
  ⟨by norm_num, by decide, eval_upsert_videoA_4, eval_upsert_videoA4_2,
   C2_double_upsert videoA videoA4 videoA2 1 4 2 0 1 false true
     (by norm_num) (by decide) eval_upsert_videoA_4 eval_upsert_videoA4_2⟩

/-- C3 counterexample: the body value 3.5 is not an integer in [1,5], yet
`addOrUpdateRating` accepts it and mutates the video (the guard
`!rating || rating < 1 || rating > 5` never checks integrality), instead of
rejecting with `InvalidArgument` as the claim states. -/
theorem C3_counterexample :
    addOrUpdateRating videoA 1 (some (7 / 2)) 0 = .ok videoA35 false ∧
      addOrUpdateRating videoA 1 (some (7 / 2)) 0 ≠ .invalidArgument := by
  refine ⟨eval_upsert_videoA_35, ?_⟩
  rw [eval_upsert_videoA_35]
  simp

/-- C3 (amended): a rating that is absent, zero (falsy), below 1 or above 5 is
rejected with `InvalidArgument` and causes no mutation (no saved document on
that path); every other rational value in [1,5] — integer or not — is
accepted. -/
theorem C3_range_validation :
    (∀ (v : Video) (u t : Nat), addOrUpdateRating v u none t = .invalidArgument) ∧
    (∀ (v : Video) (u t : Nat) (r : ℚ), (r = 0 ∨ r < 1 ∨ r > 5) →
        addOrUpdateRating v u (some r) t = .invalidArgument) ∧
    (∀ (v : Video) (u t : Nat) (r : ℚ), ¬(r = 0 ∨ r < 1 ∨ r > 5) →
        ∃ (v' : Video) (b : Bool), addOrUpdateRating v u (some r) t = .ok v' b) := by
  refine ⟨fun v u t => rfl, fun v u t r h => by simp [addOrUpdateRating, h],
    fun v u t r h => ?_⟩
  exact ⟨{ v with ratings := upsertRatings v.ratings u r t,
                  averageRating := ratingSum (upsertRatings v.ratings u r t) /
                    ((upsertRatings v.ratings u r t).length : ℚ) },
         (findWithIdx (fun e => e.userId == u) v.ratings).isSome,
         by simp [addOrUpdateRating, h]⟩

/-- C3 witness: 6 is rejected, 3 is accepted. -/
theorem C3_witness :
    ((6 : ℚ) = 0 ∨ (6 : ℚ) < 1 ∨ (6 : ℚ) > 5) ∧
      addOrUpdateRating videoA 1 (some 6) 0 = .invalidArgument ∧
      ¬((3 : ℚ) = 0 ∨ (3 : ℚ) < 1 ∨ (3 : ℚ) > 5) ∧
      (∃ (v' : Video) (b : Bool), addOrUpdateRating videoA 1 (some 3) 0 = .ok v' b) :=
  ⟨by norm_num, C3_range_validation.2.1 videoA 1 0 6 (by norm_num), by norm_num,
   C3_range_validation.2.2 videoA 1 0 3 (by norm_num)⟩

/-- C7: deleting a rating the caller never gave answers `NotFound` (and the
route returns before any `save()`, so nothing changes); deleting the caller's
rating when it is the last remaining one empties the set and resets
`averageRating` to exactly 0. -/
theorem C7_delete_rating :
    (∀ (v : Video) (u : Nat), (∀ e ∈ v.ratings, e.userId ≠ u) →
        deleteRating v u = .notFound) ∧
    (∀ (v : Video) (u : Nat) (v' : Video), v.ratings.length = 1 →
        deleteRating v u = .ok v' → v'.ratings = [] ∧ v'.averageRating = 0) := by
  constructor
  · intro v u hall
    have hnone : findWithIdx (fun e => e.userId == u) v.ratings = none :=
      (findWithIdx_eq_none _ _).mpr (fun e he => beq_eq_false_iff_ne.mpr (hall e he))
    unfold deleteRating
    rw [hnone]
  · intro v u v' hlen h
    obtain ⟨i, e, hf, hv⟩ := deleteRating_ok h
    obtain ⟨a, ha⟩ := List.length_eq_one.mp hlen
    rw [ha] at hf
    by_cases hp : (a.userId == u) = true
    · simp only [findWithIdx, hp, if_true, Option.some.injEq, Prod.mk.injEq] at hf
      subst hv
      constructor
      · show (v.ratings.eraseIdx i) = []
        rw [ha, ← hf.1]
        rfl
      · show (if 0 < (v.ratings.eraseIdx i).length then
                ratingSum (v.ratings.eraseIdx i) / ((v.ratings.eraseIdx i).length : ℚ)
              else 0) = 0
        rw [ha, ← hf.1]
        rfl
    · simp [findWithIdx, hp] at hf

/-- C7 witness: no rating present answers notFound; removing the single
rating of `videoA4` empties the set and zeroes the average. -/
theorem C7_witness :
    ((∀ e ∈ videoA.ratings, e.userId ≠ 1) ∧ deleteRating videoA 1 = .notFound) ∧
    (videoA4.ratings.length = 1 ∧ deleteRating videoA4 1 = .ok videoA ∧
      (videoA.ratings = [] ∧ videoA.averageRating = 0)) :=
  ⟨⟨fun e he => absurd he (by simp [videoA]),
    C7_delete_rating.1 videoA 1 (fun e he => absurd he (by simp [videoA]))⟩,
   ⟨by decide, eval_delete_videoA4,
    C7_delete_rating.2 videoA4 1 videoA (by decide) eval_delete_videoA4⟩⟩

/-! Helper lemmas about the like toggle. -/

theorem any_eq_filter_ne (l : List Nat) (a : Nat) :
    (l.filter (fun x => x ≠ a)).any (fun x => x == a) = false := by
  simp [List.any_eq_true, List.mem_filter]

theorem filter_ne_of_not_mem (l : List Nat) (a : Nat) (h : a ∉ l) :
    l.filter (fun x => x ≠ a) = l := by
  rw [List.filter_eq_self]
  intro x hx
  simp only [decide_eq_true_eq]
  intro heq
  subst heq
  exact h hx

/-- C6 (amended): the branch behavior is as claimed (remove + decrement
floored at 0 when already liked, add + increment otherwise), and the
boolean liked-state always returns to its original value after two toggles;
the `likesCount` round trip additionally needs the stored counter to be
consistent (`likesCount ≥ 0`, as the schema enforces, and `likesCount ≥ 1`
whenever the user's liked-set contains the video) — in the inconsistent state
"already liked but likesCount = 0" the floor at 0 makes the pair end at 1. -/
theorem C6_toggle_like :
    (∀ (u : User) (v : Video),
        (likedState u v.id = true →
          toggleLike u v =
            { user := { u with moviesLiked := u.moviesLiked.filter (fun mid => mid ≠ v.id) },
              video := { v with likesCount := max 0 (v.likesCount - 1) },
              liked := false }) ∧
        (likedState u v.id = false →
          toggleLike u v =
            { user := { u with moviesLiked := u.moviesLiked ++ [v.id] },
              video := { v with likesCount := v.likesCount + 1 },
              liked := true })) ∧
    (∀ (u : User) (v : Video),
        likedState (toggleTwice u v).user v.id = likedState u v.id) ∧
    (∀ (u : User) (v : Video), 0 ≤ v.likesCount →
        (likedState u v.id = true → 1 ≤ v.likesCount) →
        (toggleTwice u v).video.likesCount = v.likesCount) := by
  refine ⟨?_, ?_, ?_⟩
  · intro u v
    constructor <;> intro h <;> simp [toggleLike, h]
  · intro u v
    by_cases hl : u.moviesLiked.any (fun mid => mid == v.id)
    · simp [toggleTwice, toggleLike, likedState, hl, any_eq_filter_ne]
    · simp [toggleTwice, toggleLike, likedState, hl, List.any_append,
        filter_ne_of_not_mem _ _ (by simpa using hl)]
  · intro u v h0 h1
    by_cases hl : u.moviesLiked.any (fun mid => mid == v.id)
    · have hc : 1 ≤ v.likesCount := h1 (by simpa [likedState] using hl)
      simp [toggleTwice, toggleLike, likedState, hl, any_eq_filter_ne]
      omega
    · simp [toggleTwice, toggleLike, likedState, hl, List.any_append]
      omega

/-- A user who already has `videoA` (id 10) in the liked-set. -/
def userLiked : User := { id := 2, name := ['B'], moviesLiked := [10], favoriteVideos := [] }

/-- `videoA` with a consistent stored counter for one liker. -/
def videoLiked1 : Video := { videoA with likesCount := 1 }

/-- C6 counterexample: in the state where the user's liked-set contains the
video but `likesCount = 0`, toggling twice ends at `likesCount = 1`, not the
original 0 — the decrement was floored at 0 and the increment was not. -/
theorem C6_counterexample :
    likedState userLiked videoA.id = true ∧ videoA.likesCount = 0 ∧
      (toggleTwice userLiked videoA).video.likesCount = 1 := by
  decide

/-- C6 witness: from the consistent state (liked, count 1) the double toggle
restores both the counter and the liked-state. -/
theorem C6_witness :
    0 ≤ videoLiked1.likesCount ∧
      (likedState userLiked videoLiked1.id = true → 1 ≤ videoLiked1.likesCount) ∧
      (toggleTwice userLiked videoLiked1).video.likesCount = videoLiked1.likesCount ∧
      likedState (toggleTwice userLiked videoLiked1).user videoLiked1.id =
        likedState userLiked videoLiked1.id :=
  ⟨by decide, fun _ => by decide,
   C6_toggle_like.2.2 userLiked videoLiked1 (by decide) (fun _ => by decide),
   C6_toggle_like.2.1 userLiked videoLiked1⟩

/-- C9: `addFavorite` with a reference already in `favoriteVideos` answers 400
("El video ya está en favoritos") without saving; `removeFavorite` with a
reference not in the list answers 404 without saving. -/
theorem C9_favorites :
    (∀ (u : User) (vid : Nat), u.favoriteVideos.contains vid →
        addFavorite u (some vid) = .alreadyFavorite) ∧
    (∀ (u : User) (vid : Nat), ¬u.favoriteVideos.contains vid →
        removeFavorite u vid = .notFound) := by
  constructor
  · intro u vid h
    have hm : vid ∈ u.favoriteVideos := by simpa using h
    simp [addFavorite, hm]
  · intro u vid h
    have hm : vid ∉ u.favoriteVideos := by simpa using h
    have hf : u.favoriteVideos.filter (fun fid => fid ≠ vid) = u.favoriteVideos :=
      filter_ne_of_not_mem _ _ hm
    simp [removeFavorite, hf, hm]

/-- A user with video 7 in the favorites list. -/
def userFav : User := { id := 3, name := ['C'], moviesLiked := [], favoriteVideos := [7] }

/-- C9 witness: adding 7 again is rejected as a duplicate; removing the absent
4 answers notFound. -/
theorem C9_witness :
    (userFav.favoriteVideos.contains 7 = true ∧
      addFavorite userFav (some 7) = .alreadyFavorite) ∧
    (¬userFav.favoriteVideos.contains 4 = true ∧
      removeFavorite userFav 4 = .notFound) :=
  ⟨⟨by decide, C9_favorites.1 userFav 7 (by decide)⟩,
   ⟨by decide, C9_favorites.2 userFav 4 (by decide)⟩⟩

/-! Helper lemmas about trimming and the comment-text guards. -/

theorem trimList_nil : trimList [] = [] := rfl

theorem head_dropWhile_eq_false {α : Type} (p : α → Bool) :
    ∀ (l : List α) (c : α), c ∈ (l.dropWhile p).head? → p c = false := by
  intro l
  induction l with
  | nil => intro c hc; simp [List.dropWhile] at hc
  | cons a t ih =>
    intro c hc
    rw [List.dropWhile_cons] at hc
    by_cases h : p a = true
    · rw [if_pos h] at hc
      exact ih c hc
    · rw [if_neg h] at hc
      have hac : a = c := by simpa using hc
      rw [← hac]
      simpa using h

theorem head_append_of_ne_nil {α : Type} (l m : List α) (h : l ≠ []) :
    (l ++ m).head? = l.head? := by
  cases l with
  | nil => exact absurd rfl h
  | cons a t => rfl

theorem revDropRev_head {α : Type} (p : α → Bool) (l : List α) :
    (l.reverse.dropWhile p).reverse = [] ∨
      ((l.reverse.dropWhile p).reverse).head? = l.head? := by
  induction l using List.reverseRecOn with
  | nil => left; rfl
  | append_singleton t a ih =>
    have hrev : (t ++ [a]).reverse = a :: t.reverse := by
      rw [List.reverse_append]; rfl
    rw [hrev, List.dropWhile_cons]
    by_cases h : p a = true
    · rw [if_pos h]
      rcases eq_or_ne t [] with rfl | ht
      · left; rfl
      · rcases ih with h1 | h1
        · left; exact h1
        · right
          rw [h1, head_append_of_ne_nil t [a] ht]
    · rw [if_neg h]
      right
      rw [List.reverse_cons, List.reverse_reverse]

theorem trimList_head_not_ws (s : List Char) :
    ∀ c ∈ (trimList s).head?, isWS c = false := by
  intro c hc
  unfold trimList at hc
  rcases revDropRev_head isWS (s.dropWhile isWS) with h | h
  · rw [h] at hc; simp at hc
  · rw [h] at hc
    exact head_dropWhile_eq_false isWS s c hc

theorem trimList_last_not_ws (s : List Char) :
    ∀ c ∈ (trimList s).reverse.head?, isWS c = false := by
  intro c hc
  unfold trimList at hc
  rw [List.reverse_reverse] at hc
  exact head_dropWhile_eq_false isWS _ c hc

theorem dropWhile_length_le {α : Type} (p : α → Bool) (l : List α) :
    (l.dropWhile p).length ≤ l.length := by
  induction l with
  | nil => simp
  | cons a t ih =>
    rw [List.dropWhile_cons]
    by_cases h : p a = true
    · rw [if_pos h]; exact le_trans ih (by simp)
    · rw [if_neg h]

theorem trimList_length_le (s : List Char) : (trimList s).length ≤ s.length := by
  unfold trimList
  rw [List.length_reverse]
  refine le_trans (dropWhile_length_le _ _) ?_
  rw [List.length_reverse]
  exact dropWhile_length_le _ _

theorem isWS_a : isWS 'a' = false := rfl

theorem isWS_space : isWS ' ' = true := rfl

theorem dropWhile_cons_a (l : List Char) : ('a' :: l).dropWhile isWS = 'a' :: l := by
  rw [List.dropWhile_cons, isWS_a]
  simp

theorem dropWhile_cons_space (l : List Char) :
    (' ' :: l).dropWhile isWS = l.dropWhile isWS := by
  rw [List.dropWhile_cons, isWS_space]
  simp

theorem trim_replicate (n : Nat) (h : n ≠ 0) :
    trimList (List.replicate n 'a') = List.replicate n 'a' := by
  obtain ⟨m, rfl⟩ := Nat.exists_eq_succ_of_ne_zero h
  unfold trimList
  rw [List.replicate_succ, dropWhile_cons_a, ← List.replicate_succ, List.reverse_replicate,
    List.replicate_succ, dropWhile_cons_a, ← List.replicate_succ, List.reverse_replicate]

theorem trim_replicate_space (n : Nat) (h : n ≠ 0) :
    trimList (List.replicate n 'a' ++ [' ']) = List.replicate n 'a' := by
  obtain ⟨m, rfl⟩ := Nat.exists_eq_succ_of_ne_zero h
  unfold trimList
  rw [List.replicate_succ, List.cons_append, dropWhile_cons_a, ← List.cons_append,
    ← List.replicate_succ, List.reverse_append, List.reverse_replicate]
  simp only [List.reverse_cons, List.reverse_nil, List.nil_append, List.singleton_append]
  rw [dropWhile_cons_space, List.replicate_succ, dropWhile_cons_a, ← List.replicate_succ,
    List.reverse_replicate]

theorem comment_guard_false {text : List Char} (htr : trimList text ≠ []) :
    (text.isEmpty || (trimList text).isEmpty) = false := by
  have h2 : (trimList text).isEmpty = false := by
    cases ht : trimList text with
    | nil => exact absurd ht htr
    | cons a t => rfl
  have h1 : text.isEmpty = false := by
    cases text with
    | nil => exact absurd trimList_nil htr
    | cons a t => rfl
  rw [h1, h2]
  rfl

theorem replicate_a_ne_nil (n : Nat) (h : n ≠ 0) : List.replicate n 'a' ≠ [] := by
  intro hnil
  apply h
  have hlen := congrArg List.length hnil
  rw [List.length_replicate] at hlen
  simpa using hlen

/-- `addComment` on a text that passes both validation checks. -/
theorem addComment_ok_of_valid {text : List Char} (htr : trimList text ≠ [])
    (hlen : text.length ≤ maxCommentLength) (v : Video) (u : User) (nid now : Nat) :
    addComment v u text nid now =
      .ok { v with comments := v.comments ++
              [{ commentId := nid, userId := u.id, userName := u.name,
                 text := trimList text, createdAt := now }] }
        { commentId := nid, userId := u.id, userName := u.name,
          text := trimList text, createdAt := now } := by
  unfold addComment
  rw [comment_guard_false htr]
  simp only [Bool.false_eq_true, if_false]
  rw [if_neg (Nat.not_lt.mpr hlen)]

/-- `editComment` after a text that passes both validation checks. -/
theorem editComment_eq_of_valid {text : List Char} (htr : trimList text ≠ [])
    (hlen : text.length ≤ maxCommentLength) (v : Video) (uid cid : Nat) :
    editComment v uid cid text =
      match findWithIdx (fun c => c.commentId == cid) v.comments with
      | none => .notFound
      | some (i, c) =>
        if c.userId ≠ uid then .forbidden
        else
          .ok { v with comments :=
                  modifyIdx (fun cc => { cc with text := trimList text }) i v.comments }
            { c with text := trimList text } := by
  unfold editComment
  rw [comment_guard_false htr]
  simp only [Bool.false_eq_true, if_false]
  rw [if_neg (Nat.not_lt.mpr hlen)]

/-- C4: an edit or delete request (with text passing validation, for edit) by
an authenticated user who is not the comment's author answers `Forbidden`
(HTTP 403) before any save, leaving the comment unmodified; a commentId not
present on the video answers `NotFound` (HTTP 404). -/
theorem C4_comment_authorization :
    (∀ (v : Video) (uid cid : Nat) (text : List Char) (i : Nat) (c : Comment),
        trimList text ≠ [] → text.length ≤ maxCommentLength →
        findWithIdx (fun cc => cc.commentId == cid) v.comments = some (i, c) →
        c.userId ≠ uid →
        editComment v uid cid text = .forbidden) ∧
    (∀ (v : Video) (uid cid : Nat) (text : List Char),
        trimList text ≠ [] → text.length ≤ maxCommentLength →
        findWithIdx (fun cc => cc.commentId == cid) v.comments = none →
        editComment v uid cid text = .notFound) ∧
    (∀ (v : Video) (uid cid i : Nat) (c : Comment),
        findWithIdx (fun cc => cc.commentId == cid) v.comments = some (i, c) →
        c.userId ≠ uid →
        deleteComment v uid cid = .forbidden) ∧
    (∀ (v : Video) (uid cid : Nat),
        findWithIdx (fun cc => cc.commentId == cid) v.comments = none →
        deleteComment v uid cid = .notFound) := by
  refine ⟨?_, ?_, ?_, ?_⟩
  · intro v uid cid text i c htr hlen hf hauth
    rw [editComment_eq_of_valid htr hlen, hf]
    simp only [if_pos hauth]
  · intro v uid cid text htr hlen hf
    rw [editComment_eq_of_valid htr hlen, hf]
  · intro v uid cid i c hf hauth
    unfold deleteComment
    rw [hf]
    simp only [if_pos hauth]
  · intro v uid cid hf
    unfold deleteComment
    rw [hf]

/-- A comment authored by user 2. -/
def commentB : Comment :=
  { commentId := 5, userId := 2, userName := ['B'], text := ['h', 'i'], createdAt := 3 }

/-- `videoA` carrying `commentB`. -/
def videoC : Video := { videoA with comments := [commentB] }

/-- C4 witness: user 1 may neither edit comment 5 of user 2 (forbidden) nor
delete the non-existent comment 9 (notFound). -/
theorem C4_witness :
    (trimList ['o', 'k'] ≠ [] ∧ (['o', 'k'] : List Char).length ≤ maxCommentLength ∧
      findWithIdx (fun cc => cc.commentId == 5) videoC.comments = some (0, commentB) ∧
      commentB.userId ≠ 1 ∧
      editComment videoC 1 5 ['o', 'k'] = .forbidden) ∧
    (findWithIdx (fun cc => cc.commentId == 9) videoC.comments = none ∧
      deleteComment videoC 1 9 = .notFound) :=
  ⟨⟨by decide, by decide, by decide, by decide,
    C4_comment_authorization.1 videoC 1 5 ['o', 'k'] 0 commentB (by decide) (by decide)
      (by decide) (by decide)⟩,
   ⟨by decide, C4_comment_authorization.2.2.2 videoC 1 9 (by decide)⟩⟩

/-- C8: for both `addComment` and `editComment`, text of raw length exactly
1000 (the configured maximum) passes validation, raw length 1001 is rejected
with `InvalidArgument`, and text whose trim is empty (empty or
whitespace-only) is rejected with `InvalidArgument`. -/
theorem C8_comment_length_validation :
    (∀ (v : Video) (u : User) (text : List Char) (nid now : Nat),
        text.length = maxCommentLength → trimList text ≠ [] →
        ∃ (v' : Video) (c : Comment), addComment v u text nid now = .ok v' c) ∧
    (∀ (v : Video) (u : User) (text : List Char) (nid now : Nat),
        text.length = maxCommentLength + 1 →
        addComment v u text nid now = .invalidArgument) ∧
    (∀ (v : Video) (u : User) (text : List Char) (nid now : Nat),
        trimList text = [] →
        addComment v u text nid now = .invalidArgument) ∧
    (∀ (v : Video) (uid cid : Nat) (text : List Char) (i : Nat) (c : Comment),
        text.length = maxCommentLength → trimList text ≠ [] →
        findWithIdx (fun cc => cc.commentId == cid) v.comments = some (i, c) →
        c.userId = uid →
        ∃ (v' : Video) (c' : Comment), editComment v uid cid text = .ok v' c') ∧
    (∀ (v : Video) (uid cid : Nat) (text : List Char),
        text.length = maxCommentLength + 1 →
        editComment v uid cid text = .invalidArgument) ∧
    (∀ (v : Video) (uid cid : Nat) (text : List Char),
        trimList text = [] →
        editComment v uid cid text = .invalidArgument) := by
  refine ⟨?_, ?_, ?_, ?_, ?_, ?_⟩
  · intro v u text nid now hlen htr
    exact ⟨_, _, addComment_ok_of_valid htr (by omega) v u nid now⟩
  · intro v u text nid now hlen
    unfold addComment
    by_cases hg : (text.isEmpty || (trimList text).isEmpty) = true
    · rw [if_pos hg]
    · rw [if_neg hg, if_pos (by omega : maxCommentLength < text.length)]
  · intro v u text nid now htr
    unfold addComment
    rw [if_pos (by simp [htr])]
  · intro v uid cid text i c hlen htr hf hauth
    have h : editComment v uid cid text =
        .ok { v with comments :=
                modifyIdx (fun cc => { cc with text := trimList text }) i v.comments }
          { c with text := trimList text } := by
      rw [editComment_eq_of_valid htr (by omega)]
      simp only [hf]
      rw [if_neg (by simp [hauth])]
    exact ⟨_, _, h⟩
  · intro v uid cid text hlen
    unfold editComment
    by_cases hg : (text.isEmpty || (trimList text).isEmpty) = true
    · rw [if_pos hg]
    · rw [if_neg hg, if_pos (by omega : maxCommentLength < text.length)]
  · intro v uid cid text htr
    unfold editComment
    rw [if_pos (by simp [htr])]

/-- C8 witness: 1000 characters accepted, 1001 rejected, whitespace-only
rejected. -/
theorem C8_witness :
    ((List.replicate 1000 'a').length = maxCommentLength ∧
      trimList (List.replicate 1000 'a') ≠ [] ∧
      (∃ (v' : Video) (c : Comment),
        addComment videoA userA (List.replicate 1000 'a') 0 0 = .ok v' c)) ∧
    ((List.replicate 1001 'a').length = maxCommentLength + 1 ∧
      addComment videoA userA (List.replicate 1001 'a') 0 0 = .invalidArgument) ∧
    (trimList [' '] = [] ∧
      addComment videoA userA [' '] 0 0 = .invalidArgument) :=
  ⟨⟨by rw [List.length_replicate]; rfl,
    by rw [trim_replicate 1000 (by norm_num)]; exact replicate_a_ne_nil 1000 (by norm_num),
    C8_comment_length_validation.1 videoA userA (List.replicate 1000 'a') 0 0
      (by rw [List.length_replicate]; rfl)
      (by rw [trim_replicate 1000 (by norm_num)]; exact replicate_a_ne_nil 1000 (by norm_num))⟩,
   ⟨by rw [List.length_replicate]; rfl,
    C8_comment_length_validation.2.1 videoA userA (List.replicate 1001 'a') 0 0
      (by rw [List.length_replicate]; rfl)⟩,
   ⟨by decide,
    C8_comment_length_validation.2.2.1 videoA userA [' '] 0 0 (by decide)⟩⟩

/-- C10: a stored comment's text is the trim of the submitted text (non-empty,
no leading or trailing whitespace, within the maximum), while the length check
runs on the raw text before trimming — so the concrete input of 1000 times
a-character followed by one space (raw length 1001, trimmed length 1000) is
rejected even though the text that would have been stored is valid. -/
theorem C10_trim_semantics :
    (∀ (v : Video) (u : User) (text : List Char) (nid now : Nat) (v' : Video) (c : Comment),
        addComment v u text nid now = .ok v' c →
        c.text = trimList text ∧ c.text ≠ [] ∧ c.text.length ≤ maxCommentLength ∧
        (∀ ch ∈ c.text.head?, isWS ch = false) ∧
        (∀ ch ∈ c.text.reverse.head?, isWS ch = false) ∧
        v'.comments = v.comments ++ [c]) ∧
    (∀ (v : Video) (uid cid : Nat) (text : List Char) (v' : Video) (c : Comment),
        editComment v uid cid text = .ok v' c →
        c.text = trimList text ∧ c.text ≠ [] ∧ c.text.length ≤ maxCommentLength) ∧
    (maxCommentLength < (List.replicate maxCommentLength 'a' ++ [' ']).length ∧
      (trimList (List.replicate maxCommentLength 'a' ++ [' '])).length ≤ maxCommentLength ∧
      trimList (List.replicate maxCommentLength 'a' ++ [' ']) ≠ [] ∧
      ∀ (v : Video) (u : User) (nid now : Nat),
        addComment v u (List.replicate maxCommentLength 'a' ++ [' ']) nid now
          = .invalidArgument) := by
  refine ⟨?_, ?_, ?_, ?_, ?_⟩
  · intro v u text nid now v' c h
    unfold addComment at h
    by_cases hg : (text.isEmpty || (trimList text).isEmpty) = true
    · rw [if_pos hg] at h; cases h
    · rw [if_neg hg] at h
      by_cases hlen : maxCommentLength < text.length
      · rw [if_pos hlen] at h; cases h
      · rw [if_neg hlen] at h
        have htr : trimList text ≠ [] := by
          intro hnil
          exact hg (by simp [hnil])
        injection h with hv hc
        refine ⟨?_, ?_, ?_, ?_, ?_, ?_⟩
        · rw [← hc]
        · rw [← hc]; exact htr
        · rw [← hc]
          show (trimList text).length ≤ maxCommentLength
          exact le_trans (trimList_length_le text) (by omega)
        · rw [← hc]; exact trimList_head_not_ws text
        · rw [← hc]; exact trimList_last_not_ws text
        · rw [← hv, ← hc]
  · intro v uid cid text v' c h
    unfold editComment at h
    split at h
    · simp at h
    · next hg =>
      split at h
      · simp at h
      · next hlen =>
        have htr : trimList text ≠ [] := by
          intro hnil
          simp [hnil] at hg
        split at h
        · simp at h
        · next i c0 heq =>
          split at h
          · simp at h
          · injection h with hv hc
            refine ⟨?_, ?_, ?_⟩
            · rw [← hc]
            · rw [← hc]; exact htr
            · rw [← hc]
              show (trimList text).length ≤ maxCommentLength
              exact le_trans (trimList_length_le text) (by omega)
  · have hl : (List.replicate maxCommentLength 'a' ++ [' ']).length
        = maxCommentLength + 1 := by
      rw [List.length_append, List.length_replicate, List.length_singleton]
    rw [hl]
    omega
  · rw [trim_replicate_space maxCommentLength (by decide), List.length_replicate]
  · constructor
    · rw [trim_replicate_space maxCommentLength (by decide)]
      exact replicate_a_ne_nil maxCommentLength (by decide)
    · intro v u nid now
      have hl : maxCommentLength < (List.replicate maxCommentLength 'a' ++ [' ']).length := by
        rw [List.length_append, List.length_replicate, List.length_singleton]
        omega
      unfold addComment
      by_cases hg : ((List.replicate maxCommentLength 'a' ++ [' ']).isEmpty
          || (trimList (List.replicate maxCommentLength 'a' ++ [' '])).isEmpty) = true
      · rw [if_pos hg]
      · rw [if_neg hg, if_pos hl]

/-- The comment stored for the submitted text space-h-i. -/
def commentHi : Comment :=
  { commentId := 0, userId := 1, userName := ['A'], text := ['h', 'i'], createdAt := 0 }

/-- `videoA` carrying `commentHi`. -/
def videoCHi : Video := { videoA with comments := [commentHi] }

theorem eval_addComment_hi :
    addComment videoA userA [' ', 'h', 'i'] 0 0 = .ok videoCHi commentHi := by
  decide

/-- C10 witness: submitting space-h-i stores the trimmed text h-i. -/
theorem C10_witness :
    addComment videoA userA [' ', 'h', 'i'] 0 0 = .ok videoCHi commentHi ∧
      (commentHi.text = trimList [' ', 'h', 'i'] ∧ commentHi.text ≠ [] ∧
        commentHi.text.length ≤ maxCommentLength ∧
        (∀ ch ∈ commentHi.text.head?, isWS ch = false) ∧
        (∀ ch ∈ commentHi.text.reverse.head?, isWS ch = false) ∧
        videoCHi.comments = videoA.comments ++ [commentHi]) :=
  ⟨eval_addComment_hi,
   C10_trim_semantics.1 videoA userA [' ', 'h', 'i'] 0 0 videoCHi commentHi eval_addComment_hi⟩

/-! Helper lemmas and instances for comment listing. -/

instance : IsTotal Comment (fun a b => b.createdAt ≤ a.createdAt) :=
  ⟨fun a b => le_total b.createdAt a.createdAt⟩

instance : IsTrans Comment (fun a b => b.createdAt ≤ a.createdAt) :=
  ⟨fun _ _ _ h1 h2 => le_trans h2 h1⟩

theorem jsSlice_sublist {α : Type} (l : List α) (a b : Int) :
    List.Sublist (jsSlice l a b) l := by
  unfold jsSlice
  exact (List.take_sublist _ _).trans (List.drop_sublist _ _)

/-- A comment whose id, author and timestamp are all `i`. -/
def mkComment (i : Nat) : Comment :=
  { commentId := i, userId := i, userName := [], text := ['x'], createdAt := i }

/-- A video with 3 comments at times 0, 1, 2. -/
def video3 : Video := { videoA with comments := [mkComment 0, mkComment 1, mkComment 2] }

/-- A video with 25 comments at times 0..24. -/
def video25 : Video := { videoA with comments := (List.range 25).map mkComment }

/-- C5 counterexample: page = -1 is non-positive, but `parseInt(page) || 1`
only replaces a falsy parse result (absent, non-numeric, or 0), and -1 is
truthy — so with 3 comments and limit 1, page -1 returns the second-newest
comment via slice's negative-index semantics instead of the newest comment
that the default page 1 returns, and currentPage is reported as -1. -/
theorem C5_counterexample :
    (getComments video3 (some (-1)) (some 1)).comments
        ≠ (getComments video3 (some 1) (some 1)).comments ∧
      (getComments video3 (some 1) (some 1)).comments
        = (getComments video3 none (some 1)).comments ∧
      (getComments video3 (some (-1)) (some 1)).currentPage = -1 := by
  refine ⟨by decide, by decide, by decide⟩

/-- C5 (amended): `getComments` sorts newest-first; page and page size default
to 1 and 20 when the query parameter is absent, non-numeric or zero (but a
negative value is used as-is, with JavaScript slice semantics); `totalPages`
is `Math.ceil(totalComments / pageSize)`; and on 25 comments page=2, limit=10
returns the comments ranked 11-20 by descending timestamp with
`totalPages = 3`. -/
theorem C5_list_comments :
    (∀ (v : Video) (l : Option Int),
        getComments v none l = getComments v (some 1) l ∧
        getComments v (some 0) l = getComments v (some 1) l) ∧
    (∀ (v : Video) (p : Option Int),
        getComments v p none = getComments v p (some 20) ∧
        getComments v p (some 0) = getComments v p (some 20)) ∧
    (∀ (v : Video) (p l : Option Int),
        ((getComments v p l).comments).Sorted (fun a b => b.createdAt ≤ a.createdAt)) ∧
    (∀ (v : Video) (p l : Option Int),
        (getComments v p l).totalPages =
          Int.ceil ((v.comments.length : ℚ) / ((jsParseIntOr 20 l : Int) : ℚ))) ∧
    (∀ (v : Video) (l : Option Int) (n : Int), n ≠ 0 →
        (getComments v (some n) l).currentPage = n) ∧
    ((getComments video25 (some 2) (some 10)).comments
        = (List.range 10).map (fun k => mkComment (14 - k)) ∧
      (getComments video25 (some 2) (some 10)).totalPages = 3) := by
  refine ⟨?_, ?_, ?_, ?_, ?_, ?_, ?_⟩
  · intro v l
    exact ⟨rfl, rfl⟩
  · intro v p
    exact ⟨rfl, rfl⟩
  · intro v p l
    have hs : (sortByCreatedAtDesc v.comments).Pairwise
        (fun a b => b.createdAt ≤ a.createdAt) := by
      unfold sortByCreatedAtDesc
      exact List.sorted_insertionSort (fun a b => b.createdAt ≤ a.createdAt) v.comments
    exact List.Pairwise.sublist (jsSlice_sublist _ _ _) hs
  · intro v p l
    rfl
  · intro v l n hn
    show jsParseIntOr 1 (some n) = n
    simp [jsParseIntOr, hn]
  · decide
  · show Int.ceil ((video25.comments.length : ℚ) / ((10 : Int) : ℚ)) = 3
    have hlen : video25.comments.length = 25 := by decide
    rw [hlen]
    rw [show (((25 : Nat) : ℚ)) = 25 by norm_num, show (((10 : Int) : ℚ)) = 10 by norm_num]
    rw [Int.ceil_eq_iff]
    norm_num

/-- C5 witness: the negative-page clause applied at page -1. -/
theorem C5_witness :
    (-1 : Int) ≠ 0 ∧ (getComments video3 (some (-1)) (some 1)).currentPage = -1 :=
  ⟨by decide, C5_list_comments.2.2.2.2.1 video3 (some 1) (-1) (by decide)⟩

end VideoApp
